import Mathlib

/-!
Verification of the ad-delivery simulator core against its specification.

Monetary amounts (Go `float64` holding two-decimal prices) are modelled as
exact rationals `ℚ`; the properties checked here are order and interval
facts that do not depend on binary rounding.  The Redis Fast-Store is
modelled as a single keyspace `String → Option ℚ` (a missing key is
`none`, which also represents a key whose TTL has expired).  Effectful
calls (database queries, the budget oracle) are passed in explicitly, so
each Go function becomes a pure Lean function over that data.
-/

namespace AdDelivery

/-! ## Data model (internal/models) -/

/-- `CampaignStatus` from internal/models/campaign.go. -/
inductive CampaignStatus where
  | draft
  | active
  | paused
  | complete
deriving DecidableEq, Repr

/-- `BidType` from internal/models/campaign.go. -/
inductive BidType where
  | CPM
  | CPC
  | CPA
deriving DecidableEq, Repr

/-- `EventType` from internal/models (tracking events). -/
inductive EventType where
  | impression
  | click
  | conversion
  | viewable
deriving DecidableEq, Repr

/-- `DayPartRule` from internal/models/campaign.go. -/
structure DayPartRule where
  DayOfWeek : Int
  StartHour : Int
  EndHour : Int
deriving DecidableEq, Repr

/-- `TargetingRules` from internal/models/campaign.go (custom targeting and
user segments are never read by the engine and are omitted). -/
structure TargetingRules where
  GeoTargeting : List String
  DeviceTypes : List String
  DayParting : List DayPartRule
deriving DecidableEq, Repr

/-- `FrequencyCapping` from internal/models/campaign.go; `TimeWindow` is a
duration in nanoseconds as in Go. -/
structure FrequencyCapping where
  ImpressionCap : Int
  ClickCap : Int
  TimeWindow : Int
deriving DecidableEq, Repr

/-- `Campaign` from internal/models/campaign.go.  Times are unix instants
modelled as `Int`; `EndDate` is the nullable `*time.Time`. -/
structure Campaign where
  ID : String
  Name : String
  AdvertiserID : String
  Status : CampaignStatus
  BudgetDaily : ℚ
  BudgetTotal : ℚ
  SpentDaily : ℚ
  SpentTotal : ℚ
  BidType : BidType
  BidAmount : ℚ
  TargetingRules : Option TargetingRules
  FrequencyCapping : Option FrequencyCapping
  StartDate : Int
  EndDate : Option Int
deriving DecidableEq, Repr

/-- `Geo` (the `Country` field read by targeting). -/
structure Geo where
  Country : String
deriving DecidableEq, Repr

/-- `Device` fields read by the engine. -/
structure Device where
  DeviceType : Int
  Geo : Option Geo
deriving DecidableEq, Repr

/-- `Site` fields read by the engine (category list). -/
structure Site where
  Cat : List String
deriving DecidableEq, Repr

/-- `User` fields read by the engine. -/
structure User where
  ID : String
deriving DecidableEq, Repr

/-- `Impression` fields read by the engine. -/
structure Impression where
  ID : String
  BidFloor : ℚ
deriving DecidableEq, Repr

/-- `BidRequest` fields read by the engine. -/
structure BidRequest where
  ID : String
  Imp : List Impression
  Site : Option Site
  Device : Device
  User : User
deriving DecidableEq, Repr

/-- `Bid` fields set by the engine (the remaining OpenRTB fields are never
touched by the core). -/
structure Bid where
  ID : String
  ImpID : String
  Price : ℚ
  AdID : String
  CID : String
  CrID : String
deriving DecidableEq, Repr

/-- `SeatBid` from the OpenRTB response model. -/
structure SeatBid where
  Bid : List Bid
  Seat : String
deriving DecidableEq, Repr

/-- `BidResponse` fields produced by the engine.  `NBR` is `0` when unset,
exactly as the Go zero value of the `int` field. -/
structure BidResponse where
  ID : String
  BidID : String
  Cur : String
  SeatBid : List SeatBid
  NBR : Int
deriving DecidableEq, Repr

/-- `BidEntry` from internal/auction/engine.go. -/
structure BidEntry where
  Bid : Bid
  Campaign : Campaign
  Score : ℚ
  IsEligible : Bool
deriving DecidableEq, Repr

/-- `TrackingEvent` fields read and written by the Tracking-Service. -/
structure TrackingEvent where
  ID : String
  Type' : EventType
  CampaignID : String
  CreativeID : String
  UserID : String
  SessionID : String
  Price : ℚ
  Timestamp : Int
deriving DecidableEq, Repr

/-! ## Fast-Store (pkg/redis, src/unnamed/part_005) -/

/-- The Redis keyspace: every key holds an optional rational value.  A key
that was never set, or whose TTL has expired, reads as `none`. -/
structure RedisState where
  store : String → Option ℚ

/-- Key layout of `SetCampaignBudget` / `DecrementBudget`. -/
def dailyKey (campaignID : String) : String :=
  "campaign:budget:daily:" ++ campaignID

/-- Key layout of `SetCampaignBudget` / `DecrementBudget`. -/
def totalKey (campaignID : String) : String :=
  "campaign:budget:total:" ++ campaignID

/-- `SetCampaignBudget` from pkg/redis: writes both budget counters (the
24-hour TTL on the daily key is modelled by the key later reading `none`). -/
def SetCampaignBudget (s : RedisState) (campaignID : String)
    (dailyBudget totalBudget : ℚ) : RedisState :=
  { store := fun k =>
      if k = dailyKey campaignID then some dailyBudget
      else if k = totalKey campaignID then some totalBudget
      else s.store k }

/-- `DecrementBudget` from pkg/redis: the Lua script run by `EVAL`.  It
returns `0` (here `false`) when either key is missing or either counter is
below `amount`, and otherwise decrements both counters and returns `1`
(here `true`).  The script is one Redis transaction, so it is a single
step of the model. -/
def DecrementBudget (s : RedisState) (campaignID : String) (amount : ℚ) :
    Bool × RedisState :=
  match s.store (dailyKey campaignID), s.store (totalKey campaignID) with
  | some dailyBudget, some totalBudget =>
    if dailyBudget < amount ∨ totalBudget < amount then (false, s)
    else
      (true,
        { store := fun k =>
            if k = dailyKey campaignID then some (dailyBudget - amount)
            else if k = totalKey campaignID then some (totalBudget - amount)
            else s.store k })
  | _, _ => (false, s)

/-- All values present in the store are nonnegative. -/
def NonnegBudgets (s : RedisState) : Prop :=
  ∀ k q, s.store k = some q → 0 ≤ q

/-- A sequence of `DecrementBudget` calls, applied left to right. -/
def debitSeq (s : RedisState) : List (String × ℚ) → RedisState
  | [] => s
  | (cid, amt) :: rest => debitSeq (DecrementBudget s cid amt).2 rest

/-- The two budget keys of a campaign are distinct strings. -/
theorem dailyKey_ne_totalKey (cid : String) : dailyKey cid ≠ totalKey cid := by
  intro h
  have h2 : ("campaign:budget:daily:".data ++ cid.data) =
      ("campaign:budget:total:".data ++ cid.data) := by
    have h3 := congrArg String.data h
    simp only [dailyKey, totalKey, String.data_append] at h3
    exact h3
  have h4 : "campaign:budget:daily:".data = "campaign:budget:total:".data :=
    List.append_cancel_right h2
  exact absurd h4 (by decide)

/-! ## Auction-Engine (internal/auction/engine.go) -/

/-- `contains` helper from engine.go. -/
def contains (slice : List String) (item : String) : Bool :=
  slice.any (fun s => s = item)

/-- `checkTargeting` from engine.go: geo, device-type and day-parting
checks in sequence.  `time.Now()` is abstracted into the explicit
`dayOfWeek` / `hour` arguments. -/
def checkTargeting (dayOfWeek hour : Int) (request : BidRequest)
    (campaign : Campaign) : Bool :=
  match campaign.TargetingRules with
  | none => true
  | some rules =>
    if rules.GeoTargeting.length > 0 ∧
        ¬ (match request.Device.Geo with
           | some geo => contains rules.GeoTargeting geo.Country
           | none => true) = true then false
    else if rules.DeviceTypes.length > 0 ∧
        ¬ contains rules.DeviceTypes (toString request.Device.DeviceType) = true then
      false
    else if rules.DayParting.length > 0 then
      rules.DayParting.any (fun rule =>
        decide (rule.DayOfWeek = dayOfWeek ∧
          rule.StartHour ≤ hour ∧ hour < rule.EndHour))
    else true

/-- `calculateBidAmount` from engine.go: base bid times the mobile (device
type 1, ×1.2) and site-category (×1.1) multipliers. -/
def calculateBidAmount (campaign : Campaign) (request : BidRequest) : ℚ :=
  let baseBid := campaign.BidAmount
  let multiplier : ℚ := 1
  let multiplier := if request.Device.DeviceType = 1 then multiplier * 1.2 else multiplier
  let multiplier :=
    match request.Site with
    | some site => if site.Cat.length > 0 then multiplier * 1.1 else multiplier
    | none => multiplier
  baseBid * multiplier

/-- `calculateBidScore` from engine.go: model factor 0.8 for CPC, 0.6 for
CPA, and a 0.9 factor when the remaining daily budget (from the durable
row) is under 20% of the daily budget. -/
def calculateBidScore (campaign : Campaign) (bidAmount : ℚ) : ℚ :=
  let score := bidAmount
  let score :=
    if campaign.BidType = BidType.CPC then score * 0.8
    else if campaign.BidType = BidType.CPA then score * 0.6
    else score
  let remainingBudget := campaign.BudgetDaily - campaign.SpentDaily
  if remainingBudget < campaign.BudgetDaily * 0.2 then score * 0.9 else score

/-- Insertion step of `sortByScore`.  `selectWinner` calls
`sort.Slice(bidEntries, Score i > Score j)`, whose only documented
postcondition is a permutation of the input sorted by descending score
(`SortSliceSpec` below); `sort.Slice` is documented as not stable, so the
order among equal scores is left open by the code.  To keep the model a
function, this file fixes one contract-abiding outcome via insertion
sort; no theorem relies on the tie order this instance happens to pick
(entries with distinct scores are ordered uniquely by the contract). -/
def insertByScore (e : BidEntry) : List BidEntry → List BidEntry
  | [] => [e]
  | x :: xs => if e.Score < x.Score then x :: insertByScore e xs else e :: x :: xs

/-- One deterministic outcome of `sort.Slice(bidEntries, Score i > Score j)`:
a permutation of the entries sorted by descending score (see the
`insertByScore` comment on the undetermined tie order). -/
def sortByScore : List BidEntry → List BidEntry
  | [] => []
  | e :: xs => insertByScore e (sortByScore xs)

/-- Everything Go's `sort.Slice(bidEntries, Score i > Score j)` guarantees
about its result: a permutation of the input, sorted by descending score.
Stability (preservation of the input order among equal scores) is
explicitly NOT guaranteed by `sort.Slice`. -/
def SortSliceSpec (input output : List BidEntry) : Prop :=
  input.Perm output ∧ output.Sorted (fun a b => b.Score ≤ a.Score)

/-- The tail of `selectWinner` after the sort: the winner is the head of
the sorted slice; the second price is the 2nd-ranked entry's price when
there are at least two entries, and `winner.price × 0.8` otherwise. -/
def selectWinnerOn (sorted : List BidEntry) : Option BidEntry × ℚ :=
  match sorted with
  | [] => (none, 0)
  | [winner] => (some winner, winner.Bid.Price * 0.8)
  | winner :: second :: _ => (some winner, second.Bid.Price)

/-- `selectWinner` from engine.go: sort by descending score (one
contract-abiding `sort.Slice` outcome), the winner is the head; the
second price is the 2nd-ranked entry's price when there are at least two
entries, and `winner.price × 0.8` otherwise. -/
def selectWinner (bidEntries : List BidEntry) : Option BidEntry × ℚ :=
  match sortByScore bidEntries with
  | [] => (none, 0)
  | [winner] => (some winner, winner.Bid.Price * 0.8)
  | winner :: second :: _ => (some winner, second.Bid.Price)

/-- `determineFinalPrice` from engine.go: `secondPrice + 0.01`, raised to
the floor, then capped at the winning bid. -/
def determineFinalPrice (winningBid secondPrice bidFloor : ℚ) : ℚ :=
  let finalPrice := secondPrice + 0.01
  let finalPrice := if finalPrice < bidFloor then bidFloor else finalPrice
  if finalPrice > winningBid then winningBid else finalPrice

/-- `createBidResponse` from engine.go: one seat bid carrying the winner's
bid repriced at the final price.  The fresh `uuid.New()` response id is
abstracted as `""` (no claim reads it). -/
def createBidResponse (request : BidRequest) (winner : BidEntry)
    (finalPrice : ℚ) : BidResponse :=
  { ID := request.ID
    BidID := ""
    Cur := "USD"
    SeatBid := [{ Bid := [{ winner.Bid with Price := finalPrice }]
                  Seat := "advertiser-1" }]
    NBR := 0 }

/-- `createNoBidResponse` from engine.go: empty seat-bid list and
no-bid-reason code 2. -/
def createNoBidResponse (requestID : String) : BidResponse :=
  { ID := requestID
    BidID := ""
    Cur := ""
    SeatBid := []
    NBR := 2 }

/-- First impression slot's floor price (`request.Imp[0].BidFloor`). -/
def bidFloor0 (request : BidRequest) : ℚ :=
  match request.Imp with
  | [] => 0
  | imp :: _ => imp.BidFloor

/-- Results of the effectful collaborators used by `RunAuction`: the
Campaign-Service campaign listing, the parallel eligibility fan-out
(`collectBids`, whose surviving entries are taken as given because they
depend on randomness and on live frequency counters), and
`CheckAndDecrementBudget` (an `Except` error models a Fast-Store error). -/
structure AuctionEnv where
  listActive : Except String (List Campaign)
  collectBids : List Campaign → List BidEntry
  checkAndDecrement : String → ℚ → Except String Bool

/-- `RunAuction` from engine.go.  An error from `ListActiveCampaigns` is
returned to the caller; an empty campaign list, no surviving bids, or a
failed / errored budget commit all yield the no-bid response. -/
def RunAuction (env : AuctionEnv) (request : BidRequest) :
    Except String BidResponse :=
  match env.listActive with
  | .error e => .error ("failed to get active campaigns: " ++ e)
  | .ok activeCampaigns =>
    if activeCampaigns.isEmpty then .ok (createNoBidResponse request.ID)
    else
      let bidEntries := env.collectBids activeCampaigns
      if bidEntries.isEmpty then .ok (createNoBidResponse request.ID)
      else
        match selectWinner bidEntries with
        | (none, _) => .ok (createNoBidResponse request.ID)
        | (some winner, secondPrice) =>
          let finalPrice :=
            determineFinalPrice winner.Bid.Price secondPrice (bidFloor0 request)
          match env.checkAndDecrement winner.Campaign.ID finalPrice with
          | .error _ => .ok (createNoBidResponse request.ID)
          | .ok false => .ok (createNoBidResponse request.ID)
          | .ok true => .ok (createBidResponse request winner finalPrice)

/-! ## Campaign-Service (internal/campaign/service.go) -/

/-- `CheckAndDecrementBudget` from service.go delegates to the Fast-Store
`DecrementBudget`; the fire-and-forget durable spend update
(`updateSpentInDB`) lags the Fast-Store and is not part of the live
counters modelled here. -/
def CheckAndDecrementBudget (redis : RedisState) (campaignID : String)
    (amount : ℚ) : Bool × RedisState :=
  DecrementBudget redis campaignID amount

/-- The durable campaigns table: rows as persisted by `INSERT`. -/
structure DB where
  campaigns : List Campaign

/-- Durable store plus Fast-Store, as seen by the Campaign-Service. -/
structure SystemState where
  db : DB
  redis : RedisState

/-- `CreateCampaign` from service.go: assigns the fresh id (`uuid.New()`
abstracted as the `newID` argument), sets status `draft`, zeroes both
spend counters, runs the `INSERT` (whose possible driver error is the
`insertErr` argument), then initializes the Fast-Store budget counters.
There is no input validation. -/
def CreateCampaign (s : SystemState) (newID : String)
    (insertErr : Option String) (campaign : Campaign) :
    Except String (SystemState × Campaign) :=
  let campaign := { campaign with
    ID := newID
    Status := CampaignStatus.draft
    SpentDaily := 0
    SpentTotal := 0 }
  match insertErr with
  | some e => .error ("failed to create campaign: " ++ e)
  | none =>
    let db := { campaigns := s.db.campaigns ++ [campaign] }
    let redis :=
      SetCampaignBudget s.redis campaign.ID campaign.BudgetDaily campaign.BudgetTotal
    .ok ({ db := db, redis := redis }, campaign)

/-! ## Tracking-Service (internal/tracking/service.go) -/

/-- The `uuid.Nil` zero value used by `validateAndEnrichEvent`. -/
def nilUUID : String := "00000000-0000-0000-0000-000000000000"

/-- `validateAndEnrichEvent` from tracking/service.go: rejects the nil
campaign id, a missing campaign and a non-active campaign; for every
click or conversion it sets the event price to the campaign's base bid,
and then debits the budget only for CPC+click and CPA+conversion,
turning a refused debit into a budget-exceeded error.  `getCampaign`
stands for the Campaign-Service `GetCampaign` database read; the returned
state is the Fast-Store after any debit. -/
def validateAndEnrichEvent (getCampaign : String → Except String Campaign)
    (redis : RedisState) (event : TrackingEvent) :
    Except String (TrackingEvent × RedisState) :=
  if event.CampaignID = nilUUID then .error "invalid campaign ID"
  else
    match getCampaign event.CampaignID with
    | .error e => .error ("campaign not found: " ++ e)
    | .ok campaign =>
      if campaign.Status ≠ CampaignStatus.active then .error "campaign is not active"
      else if event.Type' = EventType.click ∨ event.Type' = EventType.conversion then
        let event := { event with Price := campaign.BidAmount }
        if campaign.BidType = BidType.CPC ∧ event.Type' = EventType.click then
          match CheckAndDecrementBudget redis campaign.ID event.Price with
          | (true, redis') => .ok (event, redis')
          | (false, _) => .error "budget exceeded for CPC campaign"
        else if campaign.BidType = BidType.CPA ∧ event.Type' = EventType.conversion then
          match CheckAndDecrementBudget redis campaign.ID event.Price with
          | (true, redis') => .ok (event, redis')
          | (false, _) => .error "budget exceeded for CPA campaign"
        else .ok (event, redis)
      else .ok (event, redis)

/-- Tracking-Service state: the Fast-Store, the metric and frequency
increments it has issued (bookkeeping of `IncrementMetric` and
`IncrementFrequencyCap` calls), the bounded internal buffer, and the
durable `tracking_events` table. -/
structure TrackState where
  redis : RedisState
  metricIncrs : List (String × String)
  freqIncrs : List (String × String × String)
  buffer : List TrackingEvent
  persisted : List TrackingEvent

/-- Capacity of the internal event buffer (`make(chan ..., 10000)`). -/
def bufferSize : Nat := 10000

/-- The `select { case s.eventBuffer <- event: default: processEvent }`
step: enqueue when the buffer has room; otherwise run the synchronous
`processEvent` durable insert, whose possible driver error (the
`insertErr` argument, wrapped exactly as `processEvent` wraps it) is
returned to the caller instead of a new state. -/
def enqueueOrProcess (insertErr : Option String) (st : TrackState)
    (event : TrackingEvent) : Except String TrackState :=
  if st.buffer.length < bufferSize then
    .ok { st with buffer := st.buffer ++ [event] }
  else
    match insertErr with
    | some e => .error ("failed to insert tracking event: " ++ e)
    | none => .ok { st with persisted := st.persisted ++ [event] }

/-- The tail of `TrackClick` / `TrackConversion`: the enqueue-or-inline
step followed by `if err := s.processEvent(ctx, event); err != nil
{ return err }` — a failed synchronous insert is surfaced to the caller
(the counters updated so far stand), otherwise the call returns `nil`. -/
def finishTrack (insertErr : Option String) (st : TrackState)
    (event : TrackingEvent) : Except String Unit × TrackState :=
  match enqueueOrProcess insertErr st event with
  | .error e => (.error e, st)
  | .ok st' => (.ok (), st')

/-- `IncrementFrequencyCap` from campaign/service.go: a no-op when the
campaign cannot be fetched (the caller only logs that error) or has no
frequency-capping rule, otherwise one Fast-Store frequency increment. -/
def IncrementFrequencyCapSvc (getCampaign : String → Except String Campaign)
    (st : TrackState) (userID campaignID eventType : String) : TrackState :=
  match getCampaign campaignID with
  | .error _ => st
  | .ok campaign =>
    match campaign.FrequencyCapping with
    | none => st
    | some _ => { st with freqIncrs := st.freqIncrs ++ [(eventType, campaignID, userID)] }

/-- `TrackClick` from tracking/service.go: assign the fresh id and
timestamp, validate and enrich (which performs the CPC debit), and only
on success count the click metric, bump the frequency counter for a
non-empty user id, and enqueue (or synchronously persist) the event.  A
validation or budget error leaves the whole state unchanged and is
surfaced to the caller; a failed synchronous insert on the buffer-full
path is also surfaced, with the metric, frequency and budget effects
already applied. -/
def TrackClick (getCampaign : String → Except String Campaign)
    (insertErr : Option String) (st : TrackState) (event : TrackingEvent)
    (newID : String) (ts : Int) : Except String Unit × TrackState :=
  let event := { event with ID := newID, Type' := EventType.click, Timestamp := ts }
  match validateAndEnrichEvent getCampaign st.redis event with
  | .error e => (.error ("failed to validate click event: " ++ e), st)
  | .ok (event, redis') =>
    let st := { st with
      redis := redis'
      metricIncrs := st.metricIncrs ++ [("clicks", event.CampaignID)] }
    let st :=
      if event.UserID ≠ "" then
        IncrementFrequencyCapSvc getCampaign st event.UserID event.CampaignID "click"
      else st
    finishTrack insertErr st event

/-- `TrackConversion` from tracking/service.go: like `TrackClick` but with
the conversion event type, the conversions metric, no frequency-counter
update, and the CPA debit inside `validateAndEnrichEvent`. -/
def TrackConversion (getCampaign : String → Except String Campaign)
    (insertErr : Option String) (st : TrackState) (event : TrackingEvent)
    (newID : String) (ts : Int) : Except String Unit × TrackState :=
  let event := { event with ID := newID, Type' := EventType.conversion, Timestamp := ts }
  match validateAndEnrichEvent getCampaign st.redis event with
  | .error e => (.error ("failed to validate conversion event: " ++ e), st)
  | .ok (event, redis') =>
    let st := { st with
      redis := redis'
      metricIncrs := st.metricIncrs ++ [("conversions", event.CampaignID)] }
    finishTrack insertErr st event

/-! ## Helper lemmas -/

/-- `DecrementBudget` with both keys present reduces to the guarded
decrement. -/
theorem DecrementBudget_some (s : RedisState) (cid : String) (amount d t : ℚ)
    (hd : s.store (dailyKey cid) = some d) (ht : s.store (totalKey cid) = some t) :
    DecrementBudget s cid amount =
      if d < amount ∨ t < amount then (false, s)
      else
        (true,
          { store := fun k =>
              if k = dailyKey cid then some (d - amount)
              else if k = totalKey cid then some (t - amount)
              else s.store k }) := by
  simp only [DecrementBudget, hd, ht]

/-- A missing budget key makes `DecrementBudget` refuse and keep the state. -/
theorem DecrementBudget_missing (s : RedisState) (cid : String) (amount : ℚ)
    (h : s.store (dailyKey cid) = none ∨ s.store (totalKey cid) = none) :
    DecrementBudget s cid amount = (false, s) := by
  rcases h with h | h
  · cases ht : s.store (totalKey cid) <;> simp only [DecrementBudget, h, ht]
  · cases hd : s.store (dailyKey cid) <;> simp only [DecrementBudget, hd, h]

/-- One `DecrementBudget` step keeps every stored value nonnegative. -/
theorem DecrementBudget_nonneg (s : RedisState) (cid : String) (amount : ℚ)
    (hs : NonnegBudgets s) : NonnegBudgets (DecrementBudget s cid amount).2 := by
  cases hd : s.store (dailyKey cid) with
  | none => rw [DecrementBudget_missing s cid amount (Or.inl hd)]; exact hs
  | some d =>
    cases ht : s.store (totalKey cid) with
    | none => rw [DecrementBudget_missing s cid amount (Or.inr ht)]; exact hs
    | some t =>
      rw [DecrementBudget_some s cid amount d t hd ht]
      by_cases hlt : d < amount ∨ t < amount
      · rw [if_pos hlt]; exact hs
      · rw [if_neg hlt]
        push_neg at hlt
        intro k q hk
        by_cases hk1 : k = dailyKey cid
        · simp only [hk1, if_pos rfl] at hk
          cases hk
          linarith [hlt.1]
        · by_cases hk2 : k = totalKey cid
          · subst hk2
            simp only [if_neg hk1, if_pos rfl] at hk
            cases hk
            linarith [hlt.2]
          · simp only [if_neg hk1, if_neg hk2] at hk
            exact hs k q hk

/-- Any sequence of debits keeps every stored value nonnegative. -/
theorem debitSeq_nonneg (ops : List (String × ℚ)) (s : RedisState)
    (hs : NonnegBudgets s) : NonnegBudgets (debitSeq s ops) := by
  induction ops generalizing s with
  | nil => exact hs
  | cons op rest ih =>
    exact ih (DecrementBudget s op.1 op.2).2 (DecrementBudget_nonneg s op.1 op.2 hs)

/-! ## Claim C1 -/

/-- C1: `TryDebit` (`DecrementBudget`) commits exactly when both live
counters are at least the amount; on success it decrements both counters
in the single scripted step (and both stay nonnegative), on failure the
state is untouched, and any sequence of debits keeps every counter
nonnegative. -/
theorem C1_tryDebit_atomic (s : RedisState) (cid : String) (amount d t : ℚ)
    (hd : s.store (dailyKey cid) = some d) (ht : s.store (totalKey cid) = some t) :
    ((DecrementBudget s cid amount).1 = true ↔ amount ≤ d ∧ amount ≤ t) ∧
    ((DecrementBudget s cid amount).1 = true →
      (DecrementBudget s cid amount).2.store (dailyKey cid) = some (d - amount) ∧
      (DecrementBudget s cid amount).2.store (totalKey cid) = some (t - amount) ∧
      0 ≤ d - amount ∧ 0 ≤ t - amount) ∧
    ((DecrementBudget s cid amount).1 = false → (DecrementBudget s cid amount).2 = s) ∧
    (NonnegBudgets s → ∀ ops, NonnegBudgets (debitSeq s ops)) := by
  rw [DecrementBudget_some s cid amount d t hd ht]
  by_cases hlt : d < amount ∨ t < amount
  · rw [if_pos hlt]
    refine ⟨?_, by simp, fun _ => rfl, fun hs ops => debitSeq_nonneg ops s hs⟩
    constructor
    · intro h; simp at h
    · rintro ⟨h1, h2⟩
      exfalso
      rcases hlt with h | h <;> linarith
  · rw [if_neg hlt]
    push_neg at hlt
    refine ⟨by simpa using hlt, fun _ => ?_, by simp, fun hs ops => debitSeq_nonneg ops s hs⟩
    refine ⟨?_, ?_, by linarith [hlt.1], by linarith [hlt.2]⟩
    · simp
    · simp [Ne.symm (dailyKey_ne_totalKey cid)]

/-- A concrete store holding daily 5 and total 7 for campaign `camp-1`. -/
def sampleStore : RedisState :=
  { store := fun k =>
      if k = dailyKey "camp-1" then some 5
      else if k = totalKey "camp-1" then some 7
      else none }

/-- Witness for C1: the debit of 2 from (5, 7) commits. -/
theorem C1_tryDebit_atomic_witness :
    (DecrementBudget sampleStore "camp-1" 2).1 = true :=
  ((C1_tryDebit_atomic sampleStore "camp-1" 2 5 7 rfl rfl).1).mpr (by norm_num)

/-! ## Claim C10 -/

/-- C10: a missing daily or total key makes `DecrementBudget` return
insufficient without touching the state, and an auction whose budget
oracle is `DecrementBudget` over a store with no initialized budget keys
can only end in the no-bid response. -/
theorem C10_missing_key_never_commits (s : RedisState) (env : AuctionEnv)
    (request : BidRequest) (cs : List Campaign) (cid : String) (amount : ℚ)
    (hmiss : s.store (dailyKey cid) = none ∨ s.store (totalKey cid) = none)
    (hall : ∀ c, s.store (dailyKey c) = none ∨ s.store (totalKey c) = none)
    (hlist : env.listActive = .ok cs)
    (horacle : env.checkAndDecrement =
      fun c amt => .ok ((DecrementBudget s c amt).1)) :
    DecrementBudget s cid amount = (false, s) ∧
    ∃ resp, RunAuction env request = .ok resp ∧ resp.NBR = 2 ∧ resp.SeatBid = [] := by
  refine ⟨DecrementBudget_missing s cid amount hmiss, ?_⟩
  simp only [RunAuction, hlist]
  by_cases hcs : cs.isEmpty
  · rw [if_pos hcs]
    exact ⟨_, rfl, rfl, rfl⟩
  · rw [if_neg hcs]
    by_cases hbe : (env.collectBids cs).isEmpty
    · rw [if_pos hbe]
      exact ⟨_, rfl, rfl, rfl⟩
    · rw [if_neg hbe]
      rcases hsel : selectWinner (env.collectBids cs) with ⟨ow, sp⟩
      cases ow with
      | none => exact ⟨_, rfl, rfl, rfl⟩
      | some winner =>
        have hfalse := DecrementBudget_missing s winner.Campaign.ID
          (determineFinalPrice winner.Bid.Price sp (bidFloor0 request))
          (hall winner.Campaign.ID)
        simp only [horacle, hfalse]
        exact ⟨_, rfl, rfl, rfl⟩

/-- A store with no keys at all. -/
def emptyRedis : RedisState := { store := fun _ => none }

/-- An active CPM campaign used as concrete input. -/
def campCPM : Campaign :=
  { ID := "camp-cpm"
    Name := "brand"
    AdvertiserID := "adv-1"
    Status := CampaignStatus.active
    BudgetDaily := 100
    BudgetTotal := 1000
    SpentDaily := 0
    SpentTotal := 0
    BidType := BidType.CPM
    BidAmount := 1
    TargetingRules := none
    FrequencyCapping := none
    StartDate := 0
    EndDate := none }

/-- An active CPC campaign with a higher base bid. -/
def campCPC : Campaign :=
  { ID := "camp-cpc"
    Name := "performance"
    AdvertiserID := "adv-2"
    Status := CampaignStatus.active
    BudgetDaily := 100
    BudgetTotal := 1000
    SpentDaily := 0
    SpentTotal := 0
    BidType := BidType.CPC
    BidAmount := 1.2
    TargetingRules := none
    FrequencyCapping := none
    StartDate := 0
    EndDate := none }

/-- A plain request: one impression slot with floor 0.50, non-mobile
device, no site category. -/
def requestPlain : BidRequest :=
  { ID := "req-1"
    Imp := [{ ID := "1", BidFloor := 0.5 }]
    Site := none
    Device := { DeviceType := 2, Geo := none }
    User := { ID := "" } }

/-- The bid entry `createBidEntry` builds for `campCPM` on `requestPlain`. -/
def entryCPM : BidEntry :=
  { Bid := { ID := "bid-cpm", ImpID := "1",
             Price := calculateBidAmount campCPM requestPlain,
             AdID := "camp-cpm", CID := "camp-cpm", CrID := "creative_camp-cpm" }
    Campaign := campCPM
    Score := calculateBidScore campCPM (calculateBidAmount campCPM requestPlain)
    IsEligible := true }

/-- The bid entry `createBidEntry` builds for `campCPC` on `requestPlain`. -/
def entryCPC : BidEntry :=
  { Bid := { ID := "bid-cpc", ImpID := "1",
             Price := calculateBidAmount campCPC requestPlain,
             AdID := "camp-cpc", CID := "camp-cpc", CrID := "creative_camp-cpc" }
    Campaign := campCPC
    Score := calculateBidScore campCPC (calculateBidAmount campCPC requestPlain)
    IsEligible := true }

/-- An environment whose budget oracle reads the empty store. -/
def uninitializedEnv : AuctionEnv :=
  { listActive := .ok [campCPM]
    collectBids := fun _ => [entryCPM]
    checkAndDecrement := fun c amt => .ok ((DecrementBudget emptyRedis c amt).1) }

/-- Witness for C10: over the empty store the sample auction is a no-bid. -/
theorem C10_missing_key_never_commits_witness :
    DecrementBudget emptyRedis "camp-cpm" 1 = (false, emptyRedis) ∧
    ∃ resp, RunAuction uninitializedEnv requestPlain = .ok resp ∧
      resp.NBR = 2 ∧ resp.SeatBid = [] :=
  C10_missing_key_never_commits emptyRedis uninitializedEnv requestPlain
    [campCPM] "camp-cpm" 1 (Or.inl rfl) (fun _ => Or.inl rfl) rfl rfl

/-! ## Claim C3 -/

/-- C3 counterexample input: the Campaign-Service listing fails. -/
def failingEnv : AuctionEnv :=
  { listActive := .error "connection refused"
    collectBids := fun _ => []
    checkAndDecrement := fun _ _ => .ok false }

/-- C3 is false as stated: an error from `ListActiveCampaigns` is returned
to the caller as a request failure instead of a no-bid response. -/
theorem C3_counterexample :
    RunAuction failingEnv requestPlain =
      .error "failed to get active campaigns: connection refused" := rfl

/-- C3 amended: once the active-campaign listing has succeeded, every
later error (eligibility, Fast-Store, budget commit) is swallowed, so
`RunAuction` returns a response that is either a real bid or the no-bid
response. -/
theorem C3_errors_after_listing_swallowed (env : AuctionEnv)
    (request : BidRequest) (cs : List Campaign)
    (hlist : env.listActive = .ok cs) :
    ∃ resp, RunAuction env request = .ok resp ∧
      ((resp.NBR = 2 ∧ resp.SeatBid = []) ∨ (resp.NBR = 0 ∧ resp.SeatBid ≠ [])) := by
  simp only [RunAuction, hlist]
  by_cases hcs : cs.isEmpty
  · rw [if_pos hcs]
    exact ⟨_, rfl, Or.inl ⟨rfl, rfl⟩⟩
  · rw [if_neg hcs]
    by_cases hbe : (env.collectBids cs).isEmpty
    · rw [if_pos hbe]
      exact ⟨_, rfl, Or.inl ⟨rfl, rfl⟩⟩
    · rw [if_neg hbe]
      rcases hsel : selectWinner (env.collectBids cs) with ⟨ow, sp⟩
      cases ow with
      | none => exact ⟨_, rfl, Or.inl ⟨rfl, rfl⟩⟩
      | some winner =>
        rcases hdec : env.checkAndDecrement winner.Campaign.ID
            (determineFinalPrice winner.Bid.Price sp (bidFloor0 request)) with e | b
        · simp only [hdec]
          exact ⟨_, rfl, Or.inl ⟨rfl, rfl⟩⟩
        · cases b with
          | false => simp only [hdec]; exact ⟨_, rfl, Or.inl ⟨rfl, rfl⟩⟩
          | true =>
            simp only [hdec]
            exact ⟨_, rfl, Or.inr ⟨rfl, by simp [createBidResponse]⟩⟩

/-- Witness for C3: with an empty campaign list the auction returns the
no-bid response rather than an error. -/
theorem C3_errors_after_listing_swallowed_witness :
    ∃ resp,
      RunAuction
        { listActive := .ok []
          collectBids := fun _ => []
          checkAndDecrement := fun _ _ => .ok false } requestPlain = .ok resp ∧
      ((resp.NBR = 2 ∧ resp.SeatBid = []) ∨ (resp.NBR = 0 ∧ resp.SeatBid ≠ [])) :=
  C3_errors_after_listing_swallowed
    { listActive := .ok []
      collectBids := fun _ => []
      checkAndDecrement := fun _ _ => .ok false } requestPlain [] rfl

/-! ## Evaluation of the concrete two-entry auction -/

/-- The CPM entry carries price 1 (no multiplier applies). -/
theorem entryCPM_price_eval : entryCPM.Bid.Price = 1 := by
  norm_num [entryCPM, calculateBidAmount, campCPM, requestPlain]

/-- The CPC entry carries price 1.2. -/
theorem entryCPC_price_eval : entryCPC.Bid.Price = 6/5 := by
  norm_num [entryCPC, calculateBidAmount, campCPC, requestPlain]

/-- The CPM entry scores 1 (model factor 1, full budget remaining). -/
theorem entryCPM_score_eval : entryCPM.Score = 1 := by
  norm_num [entryCPM, calculateBidScore, calculateBidAmount, campCPM, requestPlain]
  rfl

/-- The CPC entry scores 0.96 (model factor 0.8). -/
theorem entryCPC_score_eval : entryCPC.Score = 24/25 := by
  norm_num [entryCPC, calculateBidScore, calculateBidAmount, campCPC, requestPlain]

/-- The two entries are already in descending score order. -/
theorem sortPair_eval :
    sortByScore [entryCPM, entryCPC] = [entryCPM, entryCPC] := by
  have hns : ¬ entryCPM.Score < entryCPC.Score := by
    rw [entryCPM_score_eval, entryCPC_score_eval]
    norm_num
  simp [sortByScore, insertByScore, hns]

/-- The CPM entry wins and the CPC entry sets the second price. -/
theorem selectPair_eval :
    selectWinner [entryCPM, entryCPC] = (some entryCPM, entryCPC.Bid.Price) := by
  simp [selectWinner, sortPair_eval]

/-- The sample request's first slot has floor 0.50. -/
theorem floor_eval : bidFloor0 requestPlain = 1/2 := by
  norm_num [bidFloor0, requestPlain]

/-! ## Claim C2 -/

/-- C2 is false as stated: ranking is by score, not price, so the
2nd-ranked entry can carry a higher price than the winner.  With the CPM
entry (price 1, score 1) and the CPC entry (price 1.2, score 0.96) the
CPM entry wins, the second price is 1.2, and the cleared price 1 is
strictly below the 2nd-ranked entry's price. -/
theorem C2_counterexample :
    (selectWinner [entryCPM, entryCPC]).1 = some entryCPM ∧
    (selectWinner [entryCPM, entryCPC]).2 = entryCPC.Bid.Price ∧
    bidFloor0 requestPlain ≤ entryCPM.Bid.Price ∧
    determineFinalPrice entryCPM.Bid.Price (selectWinner [entryCPM, entryCPC]).2
        (bidFloor0 requestPlain) < entryCPC.Bid.Price := by
  refine ⟨?_, ?_, ?_, ?_⟩
  · rw [selectPair_eval]
  · rw [selectPair_eval]
  · rw [floor_eval, entryCPM_price_eval]
    norm_num
  · rw [selectPair_eval, entryCPM_price_eval, entryCPC_price_eval, floor_eval]
    norm_num [determineFinalPrice]

/-- C2 amended: whenever the floor does not exceed the winner's price, the
cleared price stays in `[bid_floor, winner.price]`; the cleared price is
at least the 2nd-ranked entry's price only under the extra proviso that
that price does not exceed the winner's price (which can fail, since the
ranking is by score). -/
theorem C2_cleared_price_bounds (entries : List BidEntry) (winner : BidEntry)
    (secondPrice bidFloor : ℚ)
    (_hsel : selectWinner entries = (some winner, secondPrice))
    (hfloor : bidFloor ≤ winner.Bid.Price) :
    bidFloor ≤ determineFinalPrice winner.Bid.Price secondPrice bidFloor ∧
    determineFinalPrice winner.Bid.Price secondPrice bidFloor ≤ winner.Bid.Price ∧
    (secondPrice ≤ winner.Bid.Price →
      secondPrice ≤ determineFinalPrice winner.Bid.Price secondPrice bidFloor) := by
  simp only [determineFinalPrice]
  refine ⟨?_, ?_, ?_⟩
  · split_ifs <;> linarith
  · split_ifs <;> linarith
  · intro hsp
    split_ifs <;> linarith

/-- Witness for C2 (amended): the two-entry auction instantiated. -/
theorem C2_cleared_price_bounds_witness :
    (1 : ℚ)/2 ≤ determineFinalPrice entryCPM.Bid.Price (6/5) (1/2) ∧
    determineFinalPrice entryCPM.Bid.Price (6/5) (1/2) ≤ entryCPM.Bid.Price ∧
    ((6 : ℚ)/5 ≤ entryCPM.Bid.Price →
      (6 : ℚ)/5 ≤ determineFinalPrice entryCPM.Bid.Price (6/5) (1/2)) :=
  C2_cleared_price_bounds [entryCPM, entryCPC] entryCPM (6/5) (1/2)
    (by rw [selectPair_eval, entryCPC_price_eval])
    (by rw [entryCPM_price_eval]; norm_num)

/-! ## Claim C7 -/

/-- `insertByScore` produces a permutation of consing the new entry. -/
theorem insertByScore_perm (e : BidEntry) (l : List BidEntry) :
    (insertByScore e l).Perm (e :: l) := by
  induction l with
  | nil => exact List.Perm.refl _
  | cons x xs ih =>
    have hstep : insertByScore e (x :: xs) =
        if e.Score < x.Score then x :: insertByScore e xs else e :: x :: xs := rfl
    rw [hstep]
    by_cases h : e.Score < x.Score
    · rw [if_pos h]
      exact (ih.cons x).trans (List.Perm.swap e x xs)
    · rw [if_neg h]

/-- `sortByScore` produces a permutation of its input. -/
theorem sortByScore_perm (l : List BidEntry) : (sortByScore l).Perm l := by
  induction l with
  | nil => exact List.Perm.refl _
  | cons x xs ih =>
    have hstep : sortByScore (x :: xs) = insertByScore x (sortByScore xs) := rfl
    rw [hstep]
    exact (insertByScore_perm x (sortByScore xs)).trans (ih.cons x)

/-- `insertByScore` preserves descending-score sortedness. -/
theorem insertByScore_sorted (e : BidEntry) (l : List BidEntry)
    (hl : l.Sorted (fun a b => b.Score ≤ a.Score)) :
    (insertByScore e l).Sorted (fun a b => b.Score ≤ a.Score) := by
  induction l with
  | nil => simp [insertByScore]
  | cons x xs ih =>
    have hstep : insertByScore e (x :: xs) =
        if e.Score < x.Score then x :: insertByScore e xs else e :: x :: xs := rfl
    rw [hstep]
    obtain ⟨hx, hxs⟩ := List.sorted_cons.mp hl
    by_cases h : e.Score < x.Score
    · rw [if_pos h, List.sorted_cons]
      refine ⟨?_, ih hxs⟩
      intro b hb
      have hb' : b ∈ e :: xs := (insertByScore_perm e xs).subset hb
      rcases List.mem_cons.mp hb' with hbe | hbxs
      · exact hbe ▸ le_of_lt h
      · exact hx b hbxs
    · rw [if_neg h, List.sorted_cons]
      refine ⟨?_, hl⟩
      intro b hb
      rcases List.mem_cons.mp hb with hbx | hbxs
      · exact hbx ▸ not_lt.mp h
      · exact le_trans (hx b hbxs) (not_lt.mp h)

/-- `sortByScore` output is sorted by descending score. -/
theorem sortByScore_sorted (l : List BidEntry) :
    (sortByScore l).Sorted (fun a b => b.Score ≤ a.Score) := by
  induction l with
  | nil => simp [sortByScore]
  | cons x xs ih => exact insertByScore_sorted x (sortByScore xs) ih

/-- Over any `sort.Slice` outcome satisfying the documented contract, the
selected winner is an input entry of maximal score. -/
theorem selectWinnerOn_max (input sorted : List BidEntry) (hne : input ≠ [])
    (hspec : SortSliceSpec input sorted) :
    ∃ w, (selectWinnerOn sorted).1 = some w ∧ w ∈ input ∧
      ∀ e ∈ input, e.Score ≤ w.Score := by
  obtain ⟨hperm, hsorted⟩ := hspec
  cases sorted with
  | nil => exact absurd hperm.eq_nil hne
  | cons w rest =>
    obtain ⟨hw, _⟩ := List.sorted_cons.mp hsorted
    refine ⟨w, ?_, ?_, ?_⟩
    · cases rest <;> rfl
    · exact hperm.mem_iff.mpr (List.mem_cons_self w rest)
    · intro e he
      rcases List.mem_cons.mp (hperm.subset he) with h | h
      · exact le_of_eq (by rw [h])
      · exact hw e h

/-- Two surviving entries with equal scores (same campaign and request),
distinguished by their bid ids; the earlier one in the collection order. -/
def entryTieA : BidEntry :=
  { Bid := { ID := "bid-tie-a", ImpID := "1",
             Price := calculateBidAmount campCPM requestPlain,
             AdID := "camp-cpm", CID := "camp-cpm", CrID := "creative_camp-cpm" }
    Campaign := campCPM
    Score := calculateBidScore campCPM (calculateBidAmount campCPM requestPlain)
    IsEligible := true }

/-- The equally scored entry appearing later in the collection order. -/
def entryTieB : BidEntry :=
  { Bid := { ID := "bid-tie-b", ImpID := "1",
             Price := calculateBidAmount campCPM requestPlain,
             AdID := "camp-cpm", CID := "camp-cpm", CrID := "creative_camp-cpm" }
    Campaign := campCPM
    Score := calculateBidScore campCPM (calculateBidAmount campCPM requestPlain)
    IsEligible := true }

/-- C7's tie-break clause is a guarantee the code does not make:
`sort.Slice` promises only `SortSliceSpec` (sorted permutation, stability
explicitly not guaranteed).  For the two equally scored entries, the
swapped order satisfies everything `sort.Slice` guarantees, and under it
the winner is `entryTieB` — not `entryTieA`, the entry appearing earliest
(index 0) in the input, which the claim mandates. -/
theorem C7_counterexample :
    SortSliceSpec [entryTieA, entryTieB] [entryTieB, entryTieA] ∧
    (selectWinnerOn [entryTieB, entryTieA]).1 = some entryTieB ∧
    entryTieA.Score = entryTieB.Score ∧
    entryTieB.Bid.ID ≠ entryTieA.Bid.ID ∧
    [entryTieA, entryTieB].get? 0 = some entryTieA := by
  refine ⟨⟨List.Perm.swap entryTieB entryTieA [], ?_⟩, rfl, rfl, by decide, rfl⟩
  refine List.Pairwise.cons ?_ (List.pairwise_singleton _ _)
  intro b hb
  rw [List.mem_singleton] at hb
  subst hb
  exact le_of_eq rfl

/-- C7 amended: for a non-empty entry list the winner is an entry of
maximal score — under every `sort.Slice` outcome the code's contract
allows, and in particular under the concrete `selectWinner`; which of
several equally top-scored entries wins is not determined (`sort.Slice`
is not stable), so no tie-break by insertion order is guaranteed. -/
theorem C7_winner_score_maximal (entries : List BidEntry) (hne : entries ≠ []) :
    (∀ sorted, SortSliceSpec entries sorted →
      ∃ w, (selectWinnerOn sorted).1 = some w ∧ w ∈ entries ∧
        ∀ e ∈ entries, e.Score ≤ w.Score) ∧
    SortSliceSpec entries (sortByScore entries) ∧
    selectWinner entries = selectWinnerOn (sortByScore entries) := by
  refine ⟨fun sorted hspec => selectWinnerOn_max entries sorted hne hspec,
    ⟨(sortByScore_perm entries).symm, sortByScore_sorted entries⟩, ?_⟩
  cases h : sortByScore entries with
  | nil => simp [selectWinner, selectWinnerOn, h]
  | cons w rest => cases rest <;> simp [selectWinner, selectWinnerOn, h]

/-- Witness for C7 (amended): the concrete two-entry auction. -/
theorem C7_winner_score_maximal_witness :
    (∀ sorted, SortSliceSpec [entryCPM, entryCPC] sorted →
      ∃ w, (selectWinnerOn sorted).1 = some w ∧ w ∈ [entryCPM, entryCPC] ∧
        ∀ e ∈ [entryCPM, entryCPC], e.Score ≤ w.Score) ∧
    SortSliceSpec [entryCPM, entryCPC] (sortByScore [entryCPM, entryCPC]) ∧
    selectWinner [entryCPM, entryCPC] =
      selectWinnerOn (sortByScore [entryCPM, entryCPC]) :=
  C7_winner_score_maximal [entryCPM, entryCPC] (by simp)

/-! ## Claim C8 -/

/-- `determineFinalPrice` is the clamp of `secondPrice + 0.01` into the
interval from the floor up to the winning bid. -/
theorem determineFinalPrice_eq_clamp (w sp f : ℚ) :
    determineFinalPrice w sp f = min (max (sp + 0.01) f) w := by
  simp only [determineFinalPrice]
  rcases le_or_lt f (sp + 0.01) with h | h
  · rw [if_neg (not_lt.mpr h), max_eq_left h]
    rcases le_or_lt (sp + 0.01) w with h2 | h2
    · rw [if_neg (not_lt.mpr h2), min_eq_left h2]
    · rw [if_pos h2, min_eq_right h2.le]
  · rw [if_pos h, max_eq_right h.le]
    rcases le_or_lt f w with h2 | h2
    · rw [if_neg (not_lt.mpr h2), min_eq_left h2]
    · rw [if_pos h2, min_eq_right h2.le]

/-- C8: with a single surviving bid the synthetic second price is 0.8
times the winner's price, the cleared price is the clamp of
`0.8 × price + 0.01` into `[floor, price]`, and a lone bid of 1.00 over a
floor of 0.50 clears at 0.81. -/
theorem C8_single_bid_clamp (e : BidEntry) (floor : ℚ) :
    selectWinner [e] = (some e, e.Bid.Price * 0.8) ∧
    determineFinalPrice e.Bid.Price (e.Bid.Price * 0.8) floor =
      min (max (e.Bid.Price * 0.8 + 0.01) floor) e.Bid.Price ∧
    determineFinalPrice 1 (1 * 0.8) 0.5 = 0.81 :=
  ⟨rfl, determineFinalPrice_eq_clamp e.Bid.Price (e.Bid.Price * 0.8) floor,
    by norm_num [determineFinalPrice]⟩

/-! ## Claim C4 -/

/-- A campaign violating all four validation conditions of the spec:
daily ≤ 0, total < daily, start ≥ end, bid amount < 0. -/
def invalidCampaign : Campaign :=
  { ID := ""
    Name := "bad"
    AdvertiserID := "adv-3"
    Status := CampaignStatus.active
    BudgetDaily := -5
    BudgetTotal := -10
    SpentDaily := 3
    SpentTotal := 4
    BidType := BidType.CPM
    BidAmount := -1
    TargetingRules := none
    FrequencyCapping := none
    StartDate := 10
    EndDate := some 5 }

/-- An empty system state (no rows, no Fast-Store keys). -/
def emptyState : SystemState :=
  { db := { campaigns := [] }, redis := emptyRedis }

/-- The row `CreateCampaign` persists: the input with the fresh id,
status `draft` and both spend counters zeroed. -/
def draftRow (c : Campaign) (newID : String) : Campaign :=
  { c with
    ID := newID
    Status := CampaignStatus.draft
    SpentDaily := 0
    SpentTotal := 0 }

/-- C4 is false as stated: `CreateCampaign` performs no validation, so a
campaign with negative budgets, an inverted validity window and a
negative bid amount is accepted, its row is persisted and its Fast-Store
budget counters are initialized. -/
theorem C4_counterexample :
    invalidCampaign.BudgetDaily ≤ 0 ∧
    invalidCampaign.BudgetTotal < invalidCampaign.BudgetDaily ∧
    invalidCampaign.BidAmount < 0 ∧
    (CreateCampaign emptyState "id-1" none invalidCampaign).isOk = true ∧
    (CreateCampaign emptyState "id-1" none invalidCampaign).toOption.map
        (fun r => (r.1.db.campaigns.length,
                   r.1.redis.store (dailyKey "id-1"),
                   r.1.redis.store (totalKey "id-1"))) =
      some (1, some (-5), some (-10)) := by
  refine ⟨by norm_num [invalidCampaign], by norm_num [invalidCampaign],
    by norm_num [invalidCampaign], rfl, ?_⟩
  rfl

/-- C4 amended: `CreateCampaign` never fails with a validation error:
even for an input with daily ≤ 0, total < daily, start ≥ end, or
bid amount < 0, it persists the row (status `draft`, spends zeroed) and
initializes the Fast-Store budget counters (unless the database insert
itself fails). -/
theorem C4_create_no_validation (s : SystemState) (newID : String) (c : Campaign)
    (_hinvalid : c.BudgetDaily ≤ 0 ∨ c.BudgetTotal < c.BudgetDaily ∨
      (∃ endDate, c.EndDate = some endDate ∧ endDate ≤ c.StartDate) ∨
      c.BidAmount < 0) :
    CreateCampaign s newID none c =
      .ok ({ db := { campaigns := s.db.campaigns ++ [draftRow c newID] }
             redis := SetCampaignBudget s.redis newID c.BudgetDaily c.BudgetTotal },
           draftRow c newID) := rfl

/-- Witness for C4 (amended): the invalid campaign is accepted. -/
theorem C4_create_no_validation_witness :
    CreateCampaign emptyState "id-1" none invalidCampaign =
      .ok ({ db := { campaigns := emptyState.db.campaigns ++
                       [draftRow invalidCampaign "id-1"] }
             redis := SetCampaignBudget emptyState.redis "id-1"
               invalidCampaign.BudgetDaily invalidCampaign.BudgetTotal },
           draftRow invalidCampaign "id-1") :=
  C4_create_no_validation emptyState "id-1" invalidCampaign
    (Or.inl (by norm_num [invalidCampaign]))

/-! ## Claim C5 -/

/-- A click event arriving for the CPM campaign with recorded price 0. -/
def cpmClickEvent : TrackingEvent :=
  { ID := ""
    Type' := EventType.click
    CampaignID := "camp-cpm"
    CreativeID := ""
    UserID := "user-1"
    SessionID := "sess-1"
    Price := 0
    Timestamp := 0 }

/-- A campaign reader that always finds `campCPM`. -/
def getCampaignCPM : String → Except String Campaign := fun _ => .ok campCPM

/-- C5 is false as stated: a click on a CPM campaign does not keep price
0 — `validateAndEnrichEvent` assigns `price = campaign.base_bid` to every
click (and conversion) regardless of the pricing model; no budget is
debited, but the recorded price is the base bid, not 0. -/
theorem C5_counterexample :
    validateAndEnrichEvent getCampaignCPM emptyRedis cpmClickEvent =
      .ok ({ cpmClickEvent with Price := campCPM.BidAmount }, emptyRedis) ∧
    campCPM.BidAmount ≠ 0 := by
  refine ⟨rfl, ?_⟩
  norm_num [campCPM]

/-- C5 amended: every click or conversion on an active campaign is
assigned `price = campaign.base_bid` regardless of the pricing model;
the Fast-Store is left untouched (no debit) unless the combination is
CPC+click or CPA+conversion, and events that are neither clicks nor
conversions keep their price unchanged. -/
theorem C5_price_assignment (getCampaign : String → Except String Campaign)
    (redis : RedisState) (event : TrackingEvent) (c : Campaign)
    (hget : getCampaign event.CampaignID = .ok c)
    (hnil : event.CampaignID ≠ nilUUID)
    (hactive : c.Status = CampaignStatus.active) :
    ((event.Type' = EventType.click ∨ event.Type' = EventType.conversion) →
      ¬(c.BidType = BidType.CPC ∧ event.Type' = EventType.click) →
      ¬(c.BidType = BidType.CPA ∧ event.Type' = EventType.conversion) →
      validateAndEnrichEvent getCampaign redis event =
        .ok ({ event with Price := c.BidAmount }, redis)) ∧
    (¬(event.Type' = EventType.click ∨ event.Type' = EventType.conversion) →
      validateAndEnrichEvent getCampaign redis event = .ok (event, redis)) := by
  constructor
  · intro htype hnotcpc hnotcpa
    simp only [validateAndEnrichEvent, if_neg hnil, hget]
    rw [if_neg (by simp [hactive]), if_pos htype, if_neg hnotcpc, if_neg hnotcpa]
  · intro htype
    simp only [validateAndEnrichEvent, if_neg hnil, hget]
    rw [if_neg (by simp [hactive]), if_neg htype]

/-- Witness for C5 (amended): the CPM click instantiated. -/
theorem C5_price_assignment_witness :
    ((cpmClickEvent.Type' = EventType.click ∨ cpmClickEvent.Type' = EventType.conversion) →
      ¬(campCPM.BidType = BidType.CPC ∧ cpmClickEvent.Type' = EventType.click) →
      ¬(campCPM.BidType = BidType.CPA ∧ cpmClickEvent.Type' = EventType.conversion) →
      validateAndEnrichEvent getCampaignCPM emptyRedis cpmClickEvent =
        .ok ({ cpmClickEvent with Price := campCPM.BidAmount }, emptyRedis)) ∧
    (¬(cpmClickEvent.Type' = EventType.click ∨ cpmClickEvent.Type' = EventType.conversion) →
      validateAndEnrichEvent getCampaignCPM emptyRedis cpmClickEvent =
        .ok (cpmClickEvent, emptyRedis)) :=
  C5_price_assignment getCampaignCPM emptyRedis cpmClickEvent campCPM
    rfl (by decide) rfl

/-! ## Claim C6 -/

/-- Frequency bookkeeping never touches the Fast-Store budgets. -/
theorem IncrementFrequencyCapSvc_redis (getCampaign : String → Except String Campaign)
    (st : TrackState) (userID campaignID eventType : String) :
    (IncrementFrequencyCapSvc getCampaign st userID campaignID eventType).redis =
      st.redis := by
  unfold IncrementFrequencyCapSvc
  cases hg : getCampaign campaignID with
  | error e => rfl
  | ok c => cases hc : c.FrequencyCapping <;> simp [hc]

/-- A successful enqueue-or-inline step never touches Fast-Store budgets. -/
theorem enqueueOrProcess_ok_redis (insertErr : Option String) (st : TrackState)
    (event : TrackingEvent) (st' : TrackState)
    (h : enqueueOrProcess insertErr st event = .ok st') : st'.redis = st.redis := by
  unfold enqueueOrProcess at h
  by_cases hb : st.buffer.length < bufferSize
  · rw [if_pos hb] at h
    cases h
    rfl
  · rw [if_neg hb] at h
    cases insertErr with
    | some e => simp at h
    | none =>
      cases h
      rfl

/-- Whatever the insert outcome, the state `finishTrack` hands back keeps
the Fast-Store it was given. -/
theorem finishTrack_redis (insertErr : Option String) (st : TrackState)
    (event : TrackingEvent) : (finishTrack insertErr st event).2.redis = st.redis := by
  unfold finishTrack
  rcases h : enqueueOrProcess insertErr st event with e | st'
  · rfl
  · exact enqueueOrProcess_ok_redis insertErr st event st' h

/-- When the durable insert cannot fail, `finishTrack` returns `ok`. -/
theorem finishTrack_none_ok (st : TrackState) (event : TrackingEvent) :
    (finishTrack none st event).1 = .ok () := by
  unfold finishTrack enqueueOrProcess
  by_cases hb : st.buffer.length < bufferSize
  · rw [if_pos hb]
  · rw [if_neg hb]

/-- On a CPC campaign, `validateAndEnrichEvent` applied to a click
reduces to the budget debit of the base bid. -/
theorem validate_click_cpc (getCampaign : String → Except String Campaign)
    (redis : RedisState) (ev : TrackingEvent) (c : Campaign)
    (hget : getCampaign ev.CampaignID = .ok c) (hnil : ev.CampaignID ≠ nilUUID)
    (hactive : c.Status = CampaignStatus.active) (hcpc : c.BidType = BidType.CPC)
    (hclick : ev.Type' = EventType.click) :
    validateAndEnrichEvent getCampaign redis ev =
      (match DecrementBudget redis c.ID c.BidAmount with
       | (true, redis') => .ok ({ ev with Price := c.BidAmount }, redis')
       | (false, _) => .error "budget exceeded for CPC campaign") := by
  simp only [validateAndEnrichEvent, if_neg hnil, hget]
  rw [if_neg (by simp [hactive]), if_pos (Or.inl hclick), if_pos ⟨hcpc, hclick⟩]
  rfl

/-- On a CPA campaign, `validateAndEnrichEvent` applied to a conversion
reduces to the budget debit of the base bid. -/
theorem validate_conversion_cpa (getCampaign : String → Except String Campaign)
    (redis : RedisState) (ev : TrackingEvent) (c : Campaign)
    (hget : getCampaign ev.CampaignID = .ok c) (hnil : ev.CampaignID ≠ nilUUID)
    (hactive : c.Status = CampaignStatus.active) (hcpa : c.BidType = BidType.CPA)
    (hconv : ev.Type' = EventType.conversion) :
    validateAndEnrichEvent getCampaign redis ev =
      (match DecrementBudget redis c.ID c.BidAmount with
       | (true, redis') => .ok ({ ev with Price := c.BidAmount }, redis')
       | (false, _) => .error "budget exceeded for CPA campaign") := by
  simp only [validateAndEnrichEvent, if_neg hnil, hget]
  rw [if_neg (by simp [hactive]), if_pos (Or.inr hconv),
    if_neg (by rintro ⟨h1, h2⟩; rw [hconv] at h2; cases h2),
    if_pos ⟨hcpa, hconv⟩]
  rfl

/-- C6: a click on a CPC campaign (and a conversion on a CPA campaign)
invokes the budget debit with the campaign's base bid; a refused debit
surfaces as a budget-exceeded error with the whole tracking state — in
particular the persisted `tracking_events` — unchanged.  On a committed
debit the final Fast-Store is exactly the debited one (whatever the
durable insert does), and when the durable insert does not fail the call
returns ok. -/
theorem C6_performance_debit (getCampaign : String → Except String Campaign)
    (insertErr : Option String) (st : TrackState) (event : TrackingEvent)
    (c : Campaign) (newID : String) (ts : Int)
    (hget : getCampaign event.CampaignID = .ok c)
    (hnil : event.CampaignID ≠ nilUUID)
    (hactive : c.Status = CampaignStatus.active) :
    (c.BidType = BidType.CPC →
      ((DecrementBudget st.redis c.ID c.BidAmount).1 = false →
        TrackClick getCampaign insertErr st event newID ts =
          (.error "failed to validate click event: budget exceeded for CPC campaign",
           st)) ∧
      ((DecrementBudget st.redis c.ID c.BidAmount).1 = true →
        (TrackClick getCampaign insertErr st event newID ts).2.redis =
          (DecrementBudget st.redis c.ID c.BidAmount).2 ∧
        (insertErr = none →
          (TrackClick getCampaign insertErr st event newID ts).1 = .ok ()))) ∧
    (c.BidType = BidType.CPA →
      ((DecrementBudget st.redis c.ID c.BidAmount).1 = false →
        TrackConversion getCampaign insertErr st event newID ts =
          (.error "failed to validate conversion event: budget exceeded for CPA campaign",
           st)) ∧
      ((DecrementBudget st.redis c.ID c.BidAmount).1 = true →
        (TrackConversion getCampaign insertErr st event newID ts).2.redis =
          (DecrementBudget st.redis c.ID c.BidAmount).2 ∧
        (insertErr = none →
          (TrackConversion getCampaign insertErr st event newID ts).1 = .ok ()))) := by
  constructor
  · intro hcpc
    have hval := validate_click_cpc getCampaign st.redis
      { event with ID := newID, Type' := EventType.click, Timestamp := ts } c
      hget hnil hactive hcpc rfl
    constructor
    · intro hfail
      rcases hdec : DecrementBudget st.redis c.ID c.BidAmount with ⟨b, r⟩
      rw [hdec] at hfail
      simp only at hfail
      subst hfail
      rw [hdec] at hval
      simp only [TrackClick, hval]
      rfl
    · intro hok
      rcases hdec : DecrementBudget st.redis c.ID c.BidAmount with ⟨b, r⟩
      rw [hdec] at hok
      simp only at hok
      subst hok
      rw [hdec] at hval
      constructor
      · simp only [TrackClick, hval]
        rw [finishTrack_redis]
        split
        · rw [IncrementFrequencyCapSvc_redis]
        · rfl
      · intro hins
        subst hins
        simp only [TrackClick, hval]
        rw [finishTrack_none_ok]
  · intro hcpa
    have hval := validate_conversion_cpa getCampaign st.redis
      { event with ID := newID, Type' := EventType.conversion, Timestamp := ts } c
      hget hnil hactive hcpa rfl
    constructor
    · intro hfail
      rcases hdec : DecrementBudget st.redis c.ID c.BidAmount with ⟨b, r⟩
      rw [hdec] at hfail
      simp only at hfail
      subst hfail
      rw [hdec] at hval
      simp only [TrackConversion, hval]
      rfl
    · intro hok
      rcases hdec : DecrementBudget st.redis c.ID c.BidAmount with ⟨b, r⟩
      rw [hdec] at hok
      simp only at hok
      subst hok
      rw [hdec] at hval
      constructor
      · simp only [TrackConversion, hval]
        rw [finishTrack_redis]
      · intro hins
        subst hins
        simp only [TrackConversion, hval]
        rw [finishTrack_none_ok]

/-- A click event arriving for the CPC campaign. -/
def cpcClickEvent : TrackingEvent :=
  { ID := ""
    Type' := EventType.click
    CampaignID := "camp-cpc"
    CreativeID := ""
    UserID := "user-1"
    SessionID := "sess-1"
    Price := 0
    Timestamp := 0 }

/-- A campaign reader that always finds `campCPC`. -/
def getCampaignCPC : String → Except String Campaign := fun _ => .ok campCPC

/-- An empty tracking state over the empty Fast-Store. -/
def emptyTrackState : TrackState :=
  { redis := emptyRedis
    metricIncrs := []
    freqIncrs := []
    buffer := []
    persisted := [] }

/-- Witness for C6: over the empty Fast-Store the CPC debit is refused
and the click is rejected with the state unchanged. -/
theorem C6_performance_debit_witness :
    TrackClick getCampaignCPC none emptyTrackState cpcClickEvent "evt-1" 7 =
      (.error "failed to validate click event: budget exceeded for CPC campaign",
       emptyTrackState) :=
  (((C6_performance_debit getCampaignCPC none emptyTrackState cpcClickEvent campCPC
      "evt-1" 7 rfl (by decide) rfl).1 rfl).1)
    (by
      have h := DecrementBudget_missing emptyTrackState.redis campCPC.ID
        campCPC.BidAmount (Or.inl rfl)
      rw [h])

end AdDelivery
